import Mathlib

/-!
Verification development for ChainSynapse (`chain_synapse.py`).

This file shallowly embeds the program's pure logic — the anomaly evaluator
`analyze_anomaly`, the convergence aggregation inside `run_analysis`, the
per-asset history update (append + truncate to the last 30 entries), the
lazy initialization of missing tickers, and the fail-closed collectors — and
proves the specified properties about the embedded definitions.

Numeric model: the integer observations handed to `statistics.mean` /
`statistics.stdev` are embedded as exact rationals.  The only irrational
quantity is the sample standard deviation (a square root), and it is used by
the program solely inside the comparison `current > mean + K * stdev`.  The
embedded `analyze_anomaly` therefore carries the Bessel-corrected sample
variance (`stdev ^ 2`) in the slot where the Python function carries `stdev`
(both are `0` exactly when the other is `0`), and decides the comparison via
the equivalent squared form `mean < current ∧ K^2 * var < (current - mean)^2`.
Lemma `anomaly_cond_iff` proves this equivalence against the real-valued
`mean + K * s` form for any `s > 0` with `s^2 = var`, i.e. for the genuine
standard deviation.
-/

namespace ChainSynapse

/-- `ANOMALY_STD_DEV_THRESHOLD = 2.0` (line 29). -/
def ANOMALY_STD_DEV_THRESHOLD : ℚ := 2

/-- `CONVERGENCE_THRESHOLD = 2` (line 30). -/
def CONVERGENCE_THRESHOLD : ℕ := 2

/-- `statistics.mean(data_points)`: arithmetic mean, exact. -/
def mean (l : List ℚ) : ℚ := l.sum / (l.length : ℚ)

/-- Sum of squared deviations from the mean (numerator of the sample
variance computed by `statistics.stdev`). -/
def sumSqDev (l : List ℚ) : ℚ := (l.map (fun x => (x - mean l) ^ 2)).sum

/-- The square of `statistics.stdev(data_points)`: Bessel-corrected sample
variance (divide by `n - 1`). -/
def variance (l : List ℚ) : ℚ := sumSqDev l / ((l.length : ℚ) - 1)

/-- `analyze_anomaly(data_points, current_value)` (lines 99–111).
Result is `(is_anomaly, mean, stdev²)`; the third component is the square of
the `stdev` the Python function returns (`0` exactly when the returned stdev
is `0.0`), and `is_anomaly` decides `current > mean + K * stdev` through the
equivalent squared comparison (see `anomaly_cond_iff`). -/
def analyze_anomaly (data_points : List ℚ) (current_value : ℚ) : Bool × ℚ × ℚ :=
  if data_points.length < 5 then (false, 0, 0)
  else if variance data_points = 0 then (false, mean data_points, variance data_points)
  else
    (decide (mean data_points < current_value ∧
        ANOMALY_STD_DEV_THRESHOLD ^ 2 * variance data_points <
          (current_value - mean data_points) ^ 2),
      mean data_points, variance data_points)

/-- The squared comparison decided by `analyze_anomaly` is exactly the
program's `current_value > mean + 2.0 * stdev` once `stdev` is realised as a
positive real square root `s` of the variance. -/
theorem anomaly_cond_iff (c m v : ℚ) (s : ℝ) (hs : s ^ 2 = (v : ℝ)) (hs0 : 0 < s) :
    (m < c ∧ ANOMALY_STD_DEV_THRESHOLD ^ 2 * v < (c - m) ^ 2) ↔
      (m : ℝ) + 2 * s < (c : ℝ) := by
  have hK : (ANOMALY_STD_DEV_THRESHOLD : ℚ) = 2 := rfl
  rw [hK]
  constructor
  · rintro ⟨h1, h2⟩
    have h1' : (m : ℝ) < (c : ℝ) := by exact_mod_cast h1
    have h2' : (2 : ℝ) ^ 2 * (v : ℝ) < ((c : ℝ) - (m : ℝ)) ^ 2 := by exact_mod_cast h2
    rw [← hs] at h2'
    have h3 : (2 * s) ^ 2 < ((c : ℝ) - (m : ℝ)) ^ 2 := by nlinarith
    have h4 : 2 * s < (c : ℝ) - (m : ℝ) :=
      lt_of_pow_lt_pow_left₀ 2 (by linarith) h3
    linarith
  · intro h
    have h1 : (m : ℝ) < (c : ℝ) := by nlinarith
    refine ⟨by exact_mod_cast h1, ?_⟩
    have h4 : 2 * s < (c : ℝ) - (m : ℝ) := by linarith
    have h3 : (2 * s) ^ 2 < ((c : ℝ) - (m : ℝ)) ^ 2 := by nlinarith
    have h5 : (2 : ℝ) ^ 2 * (v : ℝ) < ((c : ℝ) - (m : ℝ)) ^ 2 := by
      rw [← hs]; nlinarith
    exact_mod_cast h5

/-- C1: for a history of non-negative integers of length ≥ 5 whose sample
standard deviation `s` is positive (`s ^ 2` is the sample variance), the
anomaly flag is set iff `current > mean + 2.0 * s`; in particular the
boundary `current = mean + 2.0 * s` is not anomalous. -/
theorem anomaly_iff_exceeds_threshold (l : List ℚ) (c : ℚ) (s : ℝ)
    (hnn : ∀ x ∈ l, ∃ k : ℕ, x = (k : ℚ))
    (h5 : 5 ≤ l.length)
    (hs : s ^ 2 = ((variance l : ℚ) : ℝ)) (hs0 : 0 < s) :
    ((analyze_anomaly l c).1 = true ↔ ((mean l : ℚ) : ℝ) + 2 * s < ((c : ℚ) : ℝ)) := by
  have hv : (0 : ℝ) < ((variance l : ℚ) : ℝ) := by
    rw [← hs]; exact pow_pos hs0 2
  have hvq : (0 : ℚ) < variance l := by exact_mod_cast hv
  have hv' : variance l ≠ 0 := ne_of_gt hvq
  unfold analyze_anomaly
  rw [if_neg (by omega), if_neg hv']
  simpa using anomaly_cond_iff c (mean l) (variance l) s hs hs0

/-- Witness for C1 at the concrete history `[1,1,3,3,2]` (mean 2, sample
variance 1, stdev 1) and current value 5. -/
theorem anomaly_iff_exceeds_threshold_witness :
    (analyze_anomaly [1, 1, 3, 3, 2] 5).1 = true ↔
      ((mean [1, 1, 3, 3, 2] : ℚ) : ℝ) + 2 * 1 < ((5 : ℚ) : ℝ) :=
  anomaly_iff_exceeds_threshold [1, 1, 3, 3, 2] 5 1
    (by intro x hx
        fin_cases hx
        exacts [⟨1, by norm_num⟩, ⟨1, by norm_num⟩, ⟨3, by norm_num⟩,
          ⟨3, by norm_num⟩, ⟨2, by norm_num⟩])
    (by decide)
    (by have h : variance [1, 1, 3, 3, 2] = 1 := by
          norm_num [variance, sumSqDev, mean]
        rw [h]; norm_num)
    one_pos

/-- C2: fewer than 5 history entries returns exactly `(false, 0.0, 0.0)`,
whatever the history's values and the current value are. -/
theorem cold_start_no_anomaly (l : List ℚ) (c : ℚ) (h : l.length < 5) :
    analyze_anomaly l c = (false, 0, 0) := by
  unfold analyze_anomaly
  rw [if_pos h]

/-- Witness for C2 at a concrete 2-element history and current value 999. -/
theorem cold_start_no_anomaly_witness :
    analyze_anomaly [100, 200] 999 = (false, 0, 0) :=
  cold_start_no_anomaly [100, 200] 999 (by decide)

/-- The mean of a nonempty constant list is that constant. -/
theorem mean_const (l : List ℚ) (x : ℚ) (hne : l ≠ []) (hall : ∀ y ∈ l, y = x) :
    mean l = x := by
  have hsum : l.sum = l.length • x := List.sum_eq_card_nsmul l x hall
  have hlen : (l.length : ℚ) ≠ 0 := by
    have : l.length ≠ 0 := fun h => hne (List.length_eq_zero.mp h)
    exact_mod_cast this
  rw [mean, hsum, nsmul_eq_mul, mul_comm, mul_div_assoc, div_self hlen, mul_one]

/-- The sample variance of a nonempty constant list is 0. -/
theorem variance_const (l : List ℚ) (x : ℚ) (hne : l ≠ []) (hall : ∀ y ∈ l, y = x) :
    variance l = 0 := by
  have hm := mean_const l x hne hall
  have hz : sumSqDev l = 0 := by
    apply List.sum_eq_zero
    intro z hz
    rcases List.mem_map.mp hz with ⟨y, hy, rfl⟩
    rw [hall y hy, hm]
    ring
  rw [variance, hz, zero_div]

/-- C3: a history of length ≥ 5 whose values are all identical has sample
standard deviation 0, and `analyze_anomaly` returns `(false, mean, 0.0)` for
every current value, where `mean` is the arithmetic mean of the history. -/
theorem constant_history_never_anomalous (l : List ℚ) (c x : ℚ)
    (h5 : 5 ≤ l.length) (hall : ∀ y ∈ l, y = x) :
    analyze_anomaly l c = (false, mean l, 0) := by
  have hne : l ≠ [] := by
    intro h; rw [h] at h5; simp at h5
  have hv := variance_const l x hne hall
  unfold analyze_anomaly
  rw [if_neg (by omega), if_pos hv, hv]

/-- Witness for C3: constant history `[7,7,7,7,7]`, current value 100. -/
theorem constant_history_never_anomalous_witness :
    analyze_anomaly [7, 7, 7, 7, 7] 100 = (false, mean [7, 7, 7, 7, 7], 0) :=
  constant_history_never_anomalous [7, 7, 7, 7, 7] 100 7 (by decide) (by simp)

/-- C9: `analyze_anomaly` is total with only defined outcomes: every input
produces a result tuple, the reported spread component is never negative
(no division error in the degenerate branches: short history yields
`(false, 0, 0)`, and with enough data the reported mean component is the
arithmetic mean).  Side-effect-freedom is inherent to the embedding:
`analyze_anomaly` is a pure function of its arguments. -/
theorem analyze_anomaly_total (l : List ℚ) (c : ℚ) :
    ∃ b m v, analyze_anomaly l c = (b, m, v) ∧ 0 ≤ v ∧
      (l.length < 5 → (b, m, v) = (false, 0, 0)) ∧
      (5 ≤ l.length → m = mean l) := by
  by_cases h5 : l.length < 5
  · exact ⟨false, 0, 0, by unfold analyze_anomaly; rw [if_pos h5], le_refl 0,
      fun _ => rfl, fun h => absurd h (by omega)⟩
  · have hvnn : 0 ≤ variance l := by
      apply div_nonneg
      · apply List.sum_nonneg
        intro z hz
        rcases List.mem_map.mp hz with ⟨y, _, rfl⟩
        exact sq_nonneg _
      · have : (5 : ℚ) ≤ (l.length : ℚ) := by exact_mod_cast Nat.le_of_not_lt h5
        linarith
    by_cases hv : variance l = 0
    · refine ⟨false, mean l, variance l, ?_, hvnn, fun h => absurd h h5, fun _ => rfl⟩
      unfold analyze_anomaly
      rw [if_neg h5, if_pos hv]
    · refine ⟨decide (mean l < c ∧
          ANOMALY_STD_DEV_THRESHOLD ^ 2 * variance l < (c - mean l) ^ 2),
        mean l, variance l, ?_, hvnn, fun h => absurd h h5, fun _ => rfl⟩
      unfold analyze_anomaly
      rw [if_neg h5, if_neg hv]

/-! ## History store and orchestrator model

The persisted state is a JSON document: a top-level object keyed by ticker,
each value an object keyed by source name holding a list of counts.  Python
`dict`s are embedded as association lists in insertion order; a subscript
read on a missing key is a `KeyError`, surfaced as `Except.error key`. -/

/-- A per-asset JSON object: source key ↦ stored sequence of counts. -/
abbrev Entry := List (String × List ℚ)

/-- The top-level persisted mapping: ticker ↦ entry. -/
abbrev Hist := List (String × Entry)

/-- Python `dict` read `d[k]` as an `Option` (first binding wins). -/
def dlookup (k : String) : List (String × α) → Option α
  | [] => none
  | (k', v) :: rest => if k' = k then some v else dlookup k rest

/-- Python `dict` write `d[k] = v`: replaces in place, or appends a new
binding at the end (dict insertion order). -/
def dset (k : String) (v : α) : List (String × α) → List (String × α)
  | [] => [(k, v)]
  | (k', v') :: rest => if k' = k then (k', v) :: rest else (k', v') :: dset k v rest

/-- `load_history()` (lines 87–92): the parsed JSON if the file exists,
otherwise the empty mapping `{}`. -/
def load_history (file : Option Hist) : Hist := file.getD []

/-- Python slice `l[-n:]`: the last `n` elements (whole list when shorter). -/
def lastN (n : ℕ) (l : List α) : List α := l.drop (l.length - n)

/-- Lines 122–123: `if ticker not in history: history[ticker] = {"github":
[], "news": [], "reddit": []}`. -/
def ensure_ticker (h : Hist) (t : String) : Hist :=
  if (dlookup t h).isSome then h
  else h ++ [(t, [("github", []), ("news", []), ("reddit", [])])]

/-- Lines 138–144: the names of the sources whose `analyze_anomaly` flag is
true, in source order. -/
def anomalies_found (sources : List (String × ℚ × List ℚ)) : List String :=
  (sources.filter (fun s => (analyze_anomaly s.2.2 s.2.1).1)).map (fun s => s.1)

/-- Lines 147–148: the convergence alert `(query, ticker, anomalies_found)`
recorded when `len(anomalies_found) >= CONVERGENCE_THRESHOLD`. -/
def convergence_alert (q t : String) (sources : List (String × ℚ × List ℚ)) :
    Option (String × String × List String) :=
  if CONVERGENCE_THRESHOLD ≤ (anomalies_found sources).length then
    some (q, t, anomalies_found sources)
  else none

/-! ### Association-list and slice lemmas -/

theorem dlookup_dset_self (k : String) (v : α) (d : List (String × α)) :
    dlookup k (dset k v d) = some v := by
  induction d with
  | nil => simp [dset, dlookup]
  | cons hd tl ih =>
    obtain ⟨k', v'⟩ := hd
    by_cases h : k' = k
    · simp [dset, dlookup, h]
    · simp [dset, dlookup, h, ih]

theorem dlookup_dset_ne (k k' : String) (hne : k' ≠ k) (v : α) (d : List (String × α)) :
    dlookup k (dset k' v d) = dlookup k d := by
  induction d with
  | nil => simp [dset, dlookup, hne]
  | cons hd tl ih =>
    obtain ⟨k'', v''⟩ := hd
    by_cases h : k'' = k'
    · subst h
      simp [dset, dlookup, hne]
    · by_cases h2 : k'' = k <;> simp [dset, dlookup, h, h2, ih, Ne.symm hne]

theorem dlookup_map_value (k : String) (f : α → β) (d : List (String × α)) :
    dlookup k (d.map (fun kv => (kv.1, f kv.2))) = (dlookup k d).map f := by
  induction d with
  | nil => simp [dlookup]
  | cons hd tl ih =>
    obtain ⟨k', v'⟩ := hd
    by_cases h : k' = k <;> simp [dlookup, h, ih]

theorem dlookup_append_of_none (k : String) (d d' : List (String × α))
    (h : dlookup k d = none) : dlookup k (d ++ d') = dlookup k d' := by
  induction d with
  | nil => simp
  | cons hd tl ih =>
    obtain ⟨k', v'⟩ := hd
    by_cases hk : k' = k
    · simp [dlookup, hk] at h
    · simp only [dlookup, hk, if_false, List.cons_append] at h ⊢
      simp [dlookup, hk]
      exact ih h

theorem lastN_length_le (n : ℕ) (l : List α) : (lastN n l).length ≤ n := by
  simp only [lastN, List.length_drop]
  omega

theorem lastN_concat_getLast (n : ℕ) (hn : 1 ≤ n) (l : List α) (v : α) :
    (lastN n (l ++ [v])).getLast? = some v := by
  have h : (l ++ [v]).length - n ≤ l.length := by
    simp only [List.length_append, List.length_cons, List.length_nil]
    omega
  rw [lastN, List.drop_append_of_le_length h, List.getLast?_concat]

/-- C5: appending a new observation then truncating with `[-30:]` (line 156)
yields, for a sequence at the 30-entry cap, a 30-entry sequence with the
oldest element dropped from the front and the new value last; in general the
result has at most 30 entries, is a contiguous suffix of the appended
sequence (the most recent entries in chronological order), and ends with the
new value. -/
theorem append_and_cap (l : List ℚ) (v : ℚ) :
    (l.length = 30 →
      lastN 30 (l ++ [v]) = l.tail ++ [v] ∧ (lastN 30 (l ++ [v])).length = 30) ∧
    (lastN 30 (l ++ [v])).length ≤ 30 ∧
    lastN 30 (l ++ [v]) <:+ (l ++ [v]) ∧
    (lastN 30 (l ++ [v])).getLast? = some v := by
  refine ⟨?_, lastN_length_le 30 _, List.drop_suffix _ _, lastN_concat_getLast 30 (by omega) l v⟩
  intro h30
  have hlen : (l ++ [v]).length - 30 = 1 := by
    simp [List.length_append, h30]
  have h1 : lastN 30 (l ++ [v]) = l.tail ++ [v] := by
    rw [lastN, hlen, List.drop_append_of_le_length (by omega), List.drop_one]
  refine ⟨h1, ?_⟩
  rw [h1]
  simp [List.length_append, List.length_tail, h30]

/-- Witness for C5 at a concrete capacity-30 sequence. -/
theorem append_and_cap_witness :
    lastN 30 (List.replicate 30 (0 : ℚ) ++ [7]) = (List.replicate 30 (0 : ℚ)).tail ++ [7] ∧
      (lastN 30 (List.replicate 30 (0 : ℚ) ++ [7])).length = 30 :=
  (append_and_cap (List.replicate 30 0) 7).1 (by simp)

/-- C4: an asset's convergence alert is recorded iff at least
`CONVERGENCE_THRESHOLD = 2` of its sources are anomalous, and the alert
lists exactly the anomalous source names; concretely, over the three sources
GitHub/News/Reddit, flags true/true/false yield an alert naming the two
anomalous sources and flags true/false/false yield none. -/
theorem convergence_alert_iff :
    (∀ (q t : String) (sources : List (String × ℚ × List ℚ)),
      ((convergence_alert q t sources).isSome ↔
        CONVERGENCE_THRESHOLD ≤ (anomalies_found sources).length) ∧
      (∀ name, name ∈ anomalies_found sources ↔
        ∃ cur past, (name, cur, past) ∈ sources ∧ (analyze_anomaly past cur).1 = true) ∧
      (∀ a, convergence_alert q t sources = some a → a = (q, t, anomalies_found sources))) ∧
    convergence_alert "Solana" "SOL"
        [("GitHub", 10, [1, 1, 3, 3, 2]), ("News", 10, [1, 1, 3, 3, 2]),
          ("Reddit", 0, [1, 1, 3, 3, 2])] =
      some ("Solana", "SOL", ["GitHub", "News"]) ∧
    convergence_alert "Solana" "SOL"
        [("GitHub", 10, [1, 1, 3, 3, 2]), ("News", 0, [1, 1, 3, 3, 2]),
          ("Reddit", 0, [1, 1, 3, 3, 2])] =
      none := by
  have hm : mean [1, 1, 3, 3, 2] = 2 := by norm_num [mean]
  have hv : variance [1, 1, 3, 3, 2] = 1 := by norm_num [variance, sumSqDev, mean]
  have hflag10 : (analyze_anomaly [1, 1, 3, 3, 2] 10).1 = true := by
    unfold analyze_anomaly
    rw [if_neg (by norm_num), if_neg (by rw [hv]; norm_num)]
    simp only [decide_eq_true_eq]
    rw [hm, hv]
    norm_num [ANOMALY_STD_DEV_THRESHOLD]
  have hflag0 : (analyze_anomaly [1, 1, 3, 3, 2] 0).1 = false := by
    unfold analyze_anomaly
    rw [if_neg (by norm_num), if_neg (by rw [hv]; norm_num)]
    simp only [decide_eq_false_iff_not]
    rw [hm]
    norm_num
  have haf1 : anomalies_found
      [("GitHub", (10 : ℚ), [(1 : ℚ), 1, 3, 3, 2]), ("News", 10, [1, 1, 3, 3, 2]),
        ("Reddit", 0, [1, 1, 3, 3, 2])] = ["GitHub", "News"] := by
    simp [anomalies_found, List.filter_cons, hflag10, hflag0]
  have haf2 : anomalies_found
      [("GitHub", (10 : ℚ), [(1 : ℚ), 1, 3, 3, 2]), ("News", 0, [1, 1, 3, 3, 2]),
        ("Reddit", 0, [1, 1, 3, 3, 2])] = ["GitHub"] := by
    simp [anomalies_found, List.filter_cons, hflag10, hflag0]
  refine ⟨?_, ?_, ?_⟩
  · intro q t sources
    refine ⟨?_, ?_, ?_⟩
    · by_cases h : CONVERGENCE_THRESHOLD ≤ (anomalies_found sources).length <;>
        simp [convergence_alert, h]
    · intro name
      unfold anomalies_found
      simp only [List.mem_map, List.mem_filter]
      constructor
      · rintro ⟨⟨nm, cur, past⟩, ⟨hmem, hflag⟩, rfl⟩
        exact ⟨cur, past, hmem, hflag⟩
      · rintro ⟨cur, past, hmem, hflag⟩
        exact ⟨(name, cur, past), ⟨hmem, hflag⟩, rfl⟩
    · intro a
      unfold convergence_alert
      split
      · intro h
        exact (Option.some_inj.mp h).symm
      · intro h
        simp at h
  · rw [convergence_alert, haf1]
    norm_num [CONVERGENCE_THRESHOLD]
  · rw [convergence_alert, haf2]
    norm_num [CONVERGENCE_THRESHOLD]

/-- Python `dict` subscript read `e[k]` on a per-asset entry: `KeyError k`
(modelled as `Except.error k`) when the key is missing. -/
def dget (k : String) (e : Entry) : Except String (List ℚ) :=
  match dlookup k e with
  | some v => Except.ok v
  | none => Except.error k

/-- Python `dict` subscript read `history[t]`: `KeyError t` when missing. -/
def hget (t : String) (h : Hist) : Except String Entry :=
  match dlookup t h with
  | some e => Except.ok e
  | none => Except.error t

/-- One iteration of the per-asset loop of `run_analysis` (lines 119–156),
with the three collector observations `g`, `n`, `r` passed in (the network
calls and console printing are external):
ticker initialization (122–123), the per-source evaluation over the stored
(pre-update) histories and aggregation (132–148), then the unconditional
appends (151–153) and the truncation of every key of `history[ticker]` to
its last 30 entries (155–156).  Dict subscripts on missing source keys
surface as `Except.error key`, in the evaluation order GitHub, News, Reddit
of line 133–135. -/
def process_asset (history : Hist) (ticker query : String) (g n r : ℚ) :
    Except String (List (String × String × List String) × Hist) :=
  (hget ticker (ensure_ticker history ticker)).bind fun entry =>
  (dget "github" entry).bind fun gh =>
  (dget "news" entry).bind fun nw =>
  (dget "reddit" entry).bind fun rd =>
  Except.ok ((convergence_alert query ticker
      [("GitHub", g, gh), ("News", n, nw), ("Reddit", r, rd)]).toList,
    dset ticker
      ((dset "reddit" (rd ++ [r]) (dset "news" (nw ++ [n])
          (dset "github" (gh ++ [g]) entry))).map (fun kv => (kv.1, lastN 30 kv.2)))
      (ensure_ticker history ticker))

theorem except_bind_ok (a : α) (f : α → Except ε β) : (Except.ok a).bind f = f a := rfl

theorem hget_eq_of_some (t : String) (h : Hist) (e : Entry)
    (he : dlookup t h = some e) : hget t h = Except.ok e := by
  rw [hget, he]

theorem dget_eq_of_some (k : String) (e : Entry) (v : List ℚ)
    (hv : dlookup k e = some v) : dget k e = Except.ok v := by
  rw [dget, hv]

/-- Unfolding of `process_asset` on the happy path, where the ticker's entry
holds all three source keys. -/
theorem process_asset_eq_of_found (history : Hist) (t q : String) (g n r : ℚ)
    (entry : Entry) (gh nw rd : List ℚ)
    (hent : dlookup t (ensure_ticker history t) = some entry)
    (hgh : dlookup "github" entry = some gh)
    (hnw : dlookup "news" entry = some nw)
    (hrd : dlookup "reddit" entry = some rd) :
    process_asset history t q g n r =
      Except.ok ((convergence_alert q t
          [("GitHub", g, gh), ("News", n, nw), ("Reddit", r, rd)]).toList,
        dset t
          ((dset "reddit" (rd ++ [r]) (dset "news" (nw ++ [n])
              (dset "github" (gh ++ [g]) entry))).map (fun kv => (kv.1, lastN 30 kv.2)))
          (ensure_ticker history t)) := by
  rw [process_asset, hget_eq_of_some t _ entry hent, except_bind_ok,
    dget_eq_of_some "github" entry gh hgh, except_bind_ok,
    dget_eq_of_some "news" entry nw hnw, except_bind_ok,
    dget_eq_of_some "reddit" entry rd hrd, except_bind_ok]

/-- C6: per-asset evaluation runs against each source's stored history as it
was before this run's update — the new observation is not part of its own
baseline — and afterwards the new observation is appended to every source's
history unconditionally (the appended-and-truncated sequence ends with the
new value whatever the anomaly flags were, the observations `g`, `n`, `r`
being arbitrary, zero included). -/
theorem eval_pre_update_append_unconditional (history : Hist) (t q : String)
    (g n r : ℚ) (entry : Entry) (gh nw rd : List ℚ)
    (hent : dlookup t history = some entry)
    (hgh : dlookup "github" entry = some gh)
    (hnw : dlookup "news" entry = some nw)
    (hrd : dlookup "reddit" entry = some rd) :
    ∃ entry' : Entry,
      process_asset history t q g n r =
        Except.ok ((convergence_alert q t
            [("GitHub", g, gh), ("News", n, nw), ("Reddit", r, rd)]).toList,
          dset t entry' history) ∧
      dlookup "github" entry' = some (lastN 30 (gh ++ [g])) ∧
      dlookup "news" entry' = some (lastN 30 (nw ++ [n])) ∧
      dlookup "reddit" entry' = some (lastN 30 (rd ++ [r])) ∧
      (lastN 30 (gh ++ [g])).getLast? = some g ∧
      (lastN 30 (nw ++ [n])).getLast? = some n ∧
      (lastN 30 (rd ++ [r])).getLast? = some r := by
  have hens : ensure_ticker history t = history := by
    rw [ensure_ticker, if_pos]
    rw [hent]
    rfl
  refine ⟨(dset "reddit" (rd ++ [r]) (dset "news" (nw ++ [n])
      (dset "github" (gh ++ [g]) entry))).map (fun kv => (kv.1, lastN 30 kv.2)),
    ?_, ?_, ?_, ?_,
    lastN_concat_getLast 30 (by omega) gh g,
    lastN_concat_getLast 30 (by omega) nw n,
    lastN_concat_getLast 30 (by omega) rd r⟩
  · rw [process_asset_eq_of_found history t q g n r entry gh nw rd
      (by rw [hens]; exact hent) hgh hnw hrd, hens]
  · rw [dlookup_map_value, dlookup_dset_ne _ _ (by decide), dlookup_dset_ne _ _ (by decide),
      dlookup_dset_self]
    rfl
  · rw [dlookup_map_value, dlookup_dset_ne _ _ (by decide), dlookup_dset_self]
    rfl
  · rw [dlookup_map_value, dlookup_dset_self]
    rfl

/-- Witness for C6: one asset with 1-element stored histories and nonzero
observations. -/
theorem eval_pre_update_append_unconditional_witness :
    ∃ entry' : Entry,
      process_asset [("A", [("github", [(1 : ℚ)]), ("news", [2]), ("reddit", [3])])]
          "A" "Aq" 4 5 6 =
        Except.ok ((convergence_alert "Aq" "A"
            [("GitHub", 4, [1]), ("News", 5, [2]), ("Reddit", 6, [3])]).toList,
          dset "A" entry' [("A", [("github", [(1 : ℚ)]), ("news", [2]), ("reddit", [3])])]) ∧
      dlookup "github" entry' = some (lastN 30 ([1] ++ [4])) ∧
      dlookup "news" entry' = some (lastN 30 ([2] ++ [5])) ∧
      dlookup "reddit" entry' = some (lastN 30 ([3] ++ [6])) ∧
      (lastN 30 ([(1 : ℚ)] ++ [4])).getLast? = some 4 ∧
      (lastN 30 ([(2 : ℚ)] ++ [5])).getLast? = some 5 ∧
      (lastN 30 ([(3 : ℚ)] ++ [6])).getLast? = some 6 :=
  eval_pre_update_append_unconditional
    [("A", [("github", [(1 : ℚ)]), ("news", [2]), ("reddit", [3])])]
    "A" "Aq" 4 5 6 [("github", [(1 : ℚ)]), ("news", [2]), ("reddit", [3])]
    [1] [2] [3] (by simp [dlookup]) (by simp [dlookup]) (by simp [dlookup])
    (by simp [dlookup])

theorem except_bind_error (e : ε) (f : α → Except ε β) :
    (Except.error e : Except ε α).bind f = Except.error e := rfl

/-- Counterexample to C8 as stated: an asset entry that exists but lacks a
per-source key is NOT lazily initialized — the subscript
`history[ticker]["news"]` raises `KeyError` (lines 122–123 only initialize a
fully missing ticker).  Concretely, a persisted entry for "DOT" holding only
a "github" key makes the run fail with `KeyError: news`. -/
theorem missing_source_key_raises :
    process_asset [("DOT", [("github", ([] : List ℚ))])] "DOT" "Polkadot" 0 0 0 =
      Except.error "news" := by
  have hens : ensure_ticker [("DOT", [("github", ([] : List ℚ))])] "DOT" =
      [("DOT", [("github", ([] : List ℚ))])] := by
    rw [ensure_ticker, if_pos]
    simp [dlookup]
  rw [process_asset, hens,
    hget_eq_of_some "DOT" _ [("github", ([] : List ℚ))] (by simp [dlookup]), except_bind_ok,
    dget_eq_of_some "github" _ [] (by simp [dlookup]), except_bind_ok]
  have hnews : dget "news" [("github", ([] : List ℚ))] = Except.error "news" := by
    rw [dget]
    simp [dlookup]
  rw [hnews, except_bind_error]

/-- C8 (amended): absence of stored state is never an error — `load_history`
returns the empty mapping when no persisted file exists, and a ticker
missing from the mapping is lazily initialized with empty sequences for all
three sources, the run proceeding with empty baselines (no anomaly, no
alert, updated histories `[g]`, `[n]`, `[r]`).  A per-*source* key missing
from an existing asset entry is, by contrast, a KeyError
(see `missing_source_key_raises`). -/
theorem missing_state_not_an_error (history : Hist) (t q : String) (g n r : ℚ)
    (habs : dlookup t history = none) :
    load_history none = [] ∧
    process_asset history t q g n r =
      Except.ok ([],
        dset t [("github", [g]), ("news", [n]), ("reddit", [r])]
          (history ++ [(t, [("github", []), ("news", []), ("reddit", [])])])) := by
  refine ⟨rfl, ?_⟩
  have hens : ensure_ticker history t =
      history ++ [(t, [("github", []), ("news", []), ("reddit", [])])] := by
    rw [ensure_ticker, if_neg]
    rw [habs]
    simp
  have hent : dlookup t (ensure_ticker history t) =
      some [("github", []), ("news", []), ("reddit", [])] := by
    rw [hens, dlookup_append_of_none t history _ habs]
    simp [dlookup]
  rw [process_asset_eq_of_found history t q g n r _ [] [] [] hent
    (by simp [dlookup]) (by simp [dlookup]) (by simp [dlookup]), hens]
  have hflag : ∀ c : ℚ, (analyze_anomaly [] c).1 = false := by
    intro c
    rw [analyze_anomaly, if_pos (by norm_num)]
  have halert : convergence_alert q t
      [("GitHub", g, []), ("News", n, []), ("Reddit", r, [])] = none := by
    have haf : anomalies_found
        [("GitHub", g, []), ("News", n, []), ("Reddit", r, [])] = [] := by
      simp [anomalies_found, List.filter_cons, hflag]
    rw [convergence_alert, haf]
    simp [CONVERGENCE_THRESHOLD]
  rw [halert]
  have hentry : (dset "reddit" ([] ++ [r]) (dset "news" ([] ++ [n])
      (dset "github" ([] ++ [g]) [("github", []), ("news", []), ("reddit", [])]))).map
        (fun kv => (kv.1, lastN 30 kv.2)) =
      [("github", [g]), ("news", [n]), ("reddit", [r])] := by
    simp [dset, lastN]
  rw [hentry]
  rfl

/-- Witness for the amended C8: empty prior state, new ticker "SOL". -/
theorem missing_state_not_an_error_witness :
    load_history none = [] ∧
    process_asset ([] : Hist) "SOL" "Solana" 1 1 1 =
      Except.ok ([],
        dset "SOL" [("github", [1]), ("news", [1]), ("reddit", [1])]
          (([] : Hist) ++ [("SOL", [("github", []), ("news", []), ("reddit", [])])])) :=
  missing_state_not_an_error [] "SOL" "Solana" 1 1 1 rfl

/-- C10: after the per-asset step, every source sequence stored under the
processed asset has length at most 30: the truncation of lines 155–156 runs
over every key of `history[ticker]`, so sequences loaded already oversized
(e.g. from a hand-edited persisted file) are also cut back to the cap. -/
theorem processed_entry_capped (history : Hist) (t q : String) (g n r : ℚ)
    (alerts : List (String × String × List String)) (h' : Hist)
    (hok : process_asset history t q g n r = Except.ok (alerts, h'))
    (e' : Entry) (he : dlookup t h' = some e')
    (k : String) (l : List ℚ) (hk : dlookup k e' = some l) :
    l.length ≤ 30 := by
  rw [process_asset] at hok
  cases hE : hget t (ensure_ticker history t) with
  | error err => rw [hE, except_bind_error] at hok; simp at hok
  | ok entry =>
    rw [hE, except_bind_ok] at hok
    cases hG : dget "github" entry with
    | error err => rw [hG, except_bind_error] at hok; simp at hok
    | ok gh =>
      rw [hG, except_bind_ok] at hok
      cases hN : dget "news" entry with
      | error err => rw [hN, except_bind_error] at hok; simp at hok
      | ok nw =>
        rw [hN, except_bind_ok] at hok
        cases hR : dget "reddit" entry with
        | error err => rw [hR, except_bind_error] at hok; simp at hok
        | ok rd =>
          rw [hR, except_bind_ok] at hok
          simp only [Except.ok.injEq, Prod.mk.injEq] at hok
          obtain ⟨-, h2⟩ := hok
          rw [← h2, dlookup_dset_self] at he
          injection he with he'
          rw [← he', dlookup_map_value] at hk
          obtain ⟨l0, -, hl⟩ := Option.map_eq_some'.mp hk
          rw [← hl]
          exact lastN_length_le 30 l0

/-- Witness for C10: a persisted "github" sequence of length 32 (beyond the
cap) is truncated to 30 by processing the asset. -/
theorem processed_entry_capped_witness :
    (lastN 30 (List.replicate 32 (0 : ℚ) ++ [0])).length ≤ 30 := by
  have hvz : variance (List.replicate 32 (0 : ℚ)) = 0 :=
    variance_const _ 0 (by simp) (fun y hy => List.eq_of_mem_replicate hy)
  have hflagG : (analyze_anomaly (List.replicate 32 (0 : ℚ)) 0).1 = false := by
    rw [analyze_anomaly, if_neg (by simp), if_pos hvz]
  have hflagE : ∀ c : ℚ, (analyze_anomaly [] c).1 = false := by
    intro c
    rw [analyze_anomaly, if_pos (by norm_num)]
  have hens : ensure_ticker
      [("X", [("github", List.replicate 32 (0 : ℚ)), ("news", []), ("reddit", [])])] "X" =
      [("X", [("github", List.replicate 32 (0 : ℚ)), ("news", []), ("reddit", [])])] := by
    rw [ensure_ticker, if_pos]
    simp [dlookup]
  have hok : process_asset
      [("X", [("github", List.replicate 32 (0 : ℚ)), ("news", []), ("reddit", [])])]
      "X" "q" 0 0 0 =
      Except.ok ([],
        [("X", [("github", lastN 30 (List.replicate 32 (0 : ℚ) ++ [0])),
          ("news", lastN 30 ([] ++ [0])), ("reddit", lastN 30 ([] ++ [0]))])]) := by
    rw [process_asset_eq_of_found _ "X" "q" 0 0 0
      [("github", List.replicate 32 (0 : ℚ)), ("news", []), ("reddit", [])]
      (List.replicate 32 (0 : ℚ)) [] []
      (by rw [hens]; simp [dlookup]) (by simp [dlookup]) (by simp [dlookup])
      (by simp [dlookup]), hens]
    have halert : convergence_alert "q" "X"
        [("GitHub", 0, List.replicate 32 (0 : ℚ)), ("News", 0, []), ("Reddit", 0, [])] =
        none := by
      have haf : anomalies_found
          [("GitHub", (0 : ℚ), List.replicate 32 (0 : ℚ)), ("News", 0, []),
            ("Reddit", 0, [])] = [] := by
        simp only [anomalies_found, List.filter_cons, hflagG, hflagE,
          Bool.false_eq_true, if_false, List.filter_nil, List.map_nil]
      rw [convergence_alert, haf]
      simp [CONVERGENCE_THRESHOLD]
    rw [halert]
    simp [dset]
  exact processed_entry_capped
    [("X", [("github", List.replicate 32 (0 : ℚ)), ("news", []), ("reddit", [])])]
    "X" "q" 0 0 0 []
    [("X", [("github", lastN 30 (List.replicate 32 (0 : ℚ) ++ [0])),
      ("news", lastN 30 ([] ++ [0])), ("reddit", lastN 30 ([] ++ [0]))])]
    hok
    [("github", lastN 30 (List.replicate 32 (0 : ℚ) ++ [0])),
      ("news", lastN 30 ([] ++ [0])), ("reddit", lastN 30 ([] ++ [0]))]
    (by simp [dlookup])
    "github" (lastN 30 (List.replicate 32 (0 : ℚ) ++ [0]))
    (by simp [dlookup])

/-! ## Collectors (lines 34–83)

Each collector wraps one HTTP GET in `try ... except`.  The network layer is
external, so a collector is embedded as a function of the decoded outcome of
`requests.get(...).json()`: either a payload or a raised
`requests.RequestException` (which covers transport errors,
`raise_for_status`, and timeouts). -/

/-- Outcome of `requests.get` + `raise_for_status` + `.json()`:
a decoded payload, or a raised `requests.RequestException`. -/
inductive HttpResult (α : Type) where
  | ok (payload : α)
  | requestError (msg : String)

/-- `get_github_commits` (lines 34–47): the count of returned commits
(opaque items — only `len` is used); `except requests.RequestException`
returns 0. -/
def get_github_commits (resp : HttpResult (List String)) : ℕ :=
  match resp with
  | .ok commits => commits.length
  | .requestError _ => 0

/-- One item of the CryptoPanic `results` array; only `created_at` is read. -/
structure NewsPost where
  created_at : String

/-- The list comprehension of lines 61–64: count the posts whose parsed
`created_at` lies within the trailing 24-hour window; a post whose
timestamp `datetime.fromisoformat` cannot parse raises `ValueError`
(`Except.error`). -/
def recent_count (parseTs : String → Option ℤ) (now : ℤ) :
    List NewsPost → Except String ℕ
  | [] => Except.ok 0
  | p :: rest =>
    match parseTs p.created_at with
    | none => Except.error "ValueError: Invalid isoformat string"
    | some ts =>
      match recent_count parseTs now rest with
      | Except.error e => Except.error e
      | Except.ok k => Except.ok (if now - ts < 24 then k + 1 else k)

/-- `get_news_mentions` (lines 49–68).  `parseTs` stands for the external
`datetime.fromisoformat` (timestamps in hours); an unparseable `created_at`
raises `ValueError`, which the `except requests.RequestException` clause
does NOT catch — that failure escapes as `Except.error`.  A missing API key
returns 0 with a warning; a transport error returns 0. -/
def get_news_mentions (apiKey : Option String) (parseTs : String → Option ℤ)
    (now : ℤ) (resp : HttpResult (List NewsPost)) : Except String ℕ :=
  match apiKey with
  | none => Except.ok 0
  | some _ =>
    match resp with
    | .requestError _ => Except.ok 0
    | .ok posts => recent_count parseTs now posts

/-- `get_reddit_mentions` (lines 70–83): the payload
`response.json()['data']['children']` is `none` when either key is missing —
that `KeyError` IS caught (`except (requests.RequestException, KeyError)`),
returning 0, as does a transport error. -/
def get_reddit_mentions (resp : HttpResult (Option (List String))) : ℕ :=
  match resp with
  | .requestError _ => 0
  | .ok none => 0
  | .ok (some children) => children.length

/-- Counterexample to C7 as stated: a news response whose `created_at`
timestamp does not parse makes `get_news_mentions` raise (uncaught
`ValueError` from `datetime.fromisoformat`, line 63) instead of returning
the observation 0 — `except requests.RequestException` (line 66) does not
cover it. -/
theorem news_unparseable_timestamp_raises :
    get_news_mentions (some "key") (fun _ => none) 0
        (HttpResult.ok [⟨"not-a-timestamp"⟩]) =
      Except.error "ValueError: Invalid isoformat string" := rfl

/-- C7 (amended): every collector returns 0 on a network/transport error
(`requests.RequestException`), the missing-API-key and missing-key cases
fail closed too (news without a key returns 0; Reddit's `KeyError` on a
malformed shape is caught and returns 0), and the news collector
returns a count — rather than raising — whenever every returned
timestamp parses; but an unparseable `created_at` raises an uncaught
`ValueError` (see `news_unparseable_timestamp_raises`). -/
theorem collectors_fail_closed (msg : String) (apiKey : String)
    (parseTs : String → Option ℤ) (now : ℤ) (posts : List NewsPost) :
    get_github_commits (.requestError msg) = 0 ∧
    get_news_mentions (some apiKey) parseTs now (.requestError msg) = Except.ok 0 ∧
    get_news_mentions none parseTs now (.ok posts) = Except.ok 0 ∧
    get_reddit_mentions (.requestError msg) = 0 ∧
    get_reddit_mentions (.ok none) = 0 ∧
    ((∀ p ∈ posts, (parseTs p.created_at).isSome) →
      ∃ k, get_news_mentions (some apiKey) parseTs now (.ok posts) = Except.ok k) := by
  refine ⟨rfl, rfl, rfl, rfl, rfl, ?_⟩
  intro hall
  have hsome : ∀ ps : List NewsPost, (∀ p ∈ ps, (parseTs p.created_at).isSome) →
      ∃ k, recent_count parseTs now ps = Except.ok k := by
    intro ps
    induction ps with
    | nil => exact fun _ => ⟨0, rfl⟩
    | cons hd tl ih =>
      intro hps
      obtain ⟨t0, ht0⟩ := Option.isSome_iff_exists.mp (hps hd (List.mem_cons_self hd tl))
      obtain ⟨k, hk⟩ := ih (fun p hp => hps p (List.mem_cons_of_mem hd hp))
      refine ⟨if now - t0 < 24 then k + 1 else k, ?_⟩
      simp only [recent_count, ht0, hk]
  obtain ⟨k, hk⟩ := hsome posts hall
  exact ⟨k, hk⟩

/-- Witness for the amended C7 at concrete inputs (a timeout message, a key,
an always-parsing timestamp parser, and one well-formed post). -/
theorem collectors_fail_closed_witness :
    get_github_commits (.requestError "timeout") = 0 ∧
    get_news_mentions (some "key") (fun _ => some 0) 0 (.requestError "timeout") =
      Except.ok 0 ∧
    get_news_mentions none (fun _ => some 0) 0
      (.ok [⟨"2024-01-01T00:00:00"⟩]) = Except.ok 0 ∧
    get_reddit_mentions (.requestError "timeout") = 0 ∧
    get_reddit_mentions (.ok none) = 0 ∧
    ((∀ p ∈ [(⟨"2024-01-01T00:00:00"⟩ : NewsPost)], ((fun _ => some 0) p.created_at).isSome) →
      ∃ k, get_news_mentions (some "key") (fun _ => some 0) 0
        (.ok [⟨"2024-01-01T00:00:00"⟩]) = Except.ok k) :=
  collectors_fail_closed "timeout" "key" (fun _ => some 0) 0 [⟨"2024-01-01T00:00:00"⟩]

end ChainSynapse
